import Mathlib

/-!
Shallow embedding of the research control loop of `app.py` (DeepSearchAI).

External collaborators (the Bing search provider, the page fetcher, and the
model behind `send_private_chat`) are modelled as oracles passed to the
embedded functions.  JSON objects coming back from the search provider are
modelled as association lists from field names to (opaque, string-modelled)
values; `json.loads` for the places the code parses a JSON array of strings
is modelled as an oracle function `parse : String → Option (List String)`
(`none` = `json.JSONDecodeError`).  Python exceptions are modelled with
`Except String`.  Calls the core makes to the outside world are recorded in
an explicit event trace.
-/

namespace DeepSearchAI

/-- A search-result item: a JSON object, modelled as an association list
from field names to opaque payloads. -/
abbrev Obj := List (String × String)

/-- A `{URL, summary}` pair as built by `get_article_summaries`. -/
structure Summary where
  url : String
  summary : String
deriving DecidableEq, Repr

/-- Externally observable calls made by the core, used to state which
operations a run performs and with which arguments. -/
inductive Event where
  /-- a `search_bing` call with the given query -/
  | bingCall (q : String)
  /-- an `identify_searches` call; records the `Summaries` argument passed -/
  | identifyCall (summariesArg : Option (List Summary))
  /-- a `fetch_and_parse_url` call -/
  | fetchCall (url : String)
  /-- a summarization `send_private_chat` call for the given URL -/
  | summarizeCall (url : String)
  /-- a `set_status_message` notification -/
  | status (msg : String)
deriving DecidableEq, Repr

/-- `proparray` from `get_search_results`: the denylist of metadata fields
removed from search results. -/
def proparray : List String :=
  ["dateLastCrawled", "language", "richFacts", "isNavigational",
   "isFamilyFriendly", "displayUrl", "searchTags", "noCache",
   "cachedPageUrl", "datePublishedDisplayText", "datePublished", "id",
   "primaryImageOfPage", "thumbnailUrl"]

/-- `if prop in obj: del obj[prop]` on one object (a Python dict has unique
keys, so deleting the key is removing every entry with that key). -/
def delProp (obj : Obj) (prop : String) : Obj :=
  if obj.any (fun kv => kv.1 == prop) then
    obj.filter (fun kv => kv.1 != prop)
  else obj

/-- The inner `for prop in proparray` loop of `get_search_results`, applied
to one result object. -/
def stripFields (obj : Obj) : Obj :=
  proparray.foldl delProp obj

/-- Return value of `get_search_results`: the `"Search error."` sentinel
string, a JSON array of result objects, or Python `None` (the value the
function falls back to when the `for` loop body never runs). -/
inductive GetSearchRet where
  | sentinel
  | arr (rs : List Obj)
  | noneVal
deriving DecidableEq, Repr

/-- The `for search in searches` loop of `get_search_results`.
`bing q = none` models `search_bing` returning `None` (a caught provider
exception); `bing q = some rs` models a successful call.

In the source, the field-stripping block and the `return allresults`
statement are indented inside the loop body (inside the `else` branch of
`if results == None`), so on a successful first query the function strips
the fields collected so far and returns during the first iteration; the
`allresults += results` branch is unreachable.  The embedding reproduces
that control flow. -/
def get_search_results_go (bing : String → Option (List Obj))
    (allresults : Option (List Obj)) (evs : List Event) :
    List String → GetSearchRet × List Event
  | [] => (.noneVal, evs)
  | search :: _rest =>
    let evs := evs ++ [.bingCall search]
    match bing search with
    | none => (.sentinel, evs)
    | some results =>
      let allresults :=
        match allresults with
        | none => results
        | some acc => acc ++ results
      (.arr (allresults.map stripFields), evs)

/-- `get_search_results(searches)` with the search provider as oracle. -/
def get_search_results (bing : String → Option (List Obj))
    (searches : List String) : GetSearchRet × List Event :=
  get_search_results_go bing none [] searches

/-- `stripFields` is exactly the removal of the denylisted keys; every
other entry is kept verbatim and in order. -/
theorem stripFields_eq_filter (obj : Obj) :
    stripFields obj = obj.filter (fun kv => !(proparray.contains kv.1)) := by
  have h : ∀ (props : List String) (o : Obj),
      props.foldl delProp o = o.filter (fun kv => !(props.contains kv.1)) := by
    intro props
    induction props with
    | nil =>
      intro o
      simp [List.filter_eq_self]
    | cons p ps ih =>
      intro o
      have hdel : delProp o p = o.filter (fun kv => kv.1 != p) := by
        unfold delProp
        by_cases hmem : o.any (fun kv => kv.1 == p)
        · simp [hmem]
        · rw [if_neg hmem]
          symm
          rw [List.filter_eq_self]
          intro kv hkv
          have hall := List.any_eq_false.mp (Bool.of_not_eq_true hmem) kv hkv
          simpa [bne] using hall
      rw [List.foldl_cons, hdel, ih, List.filter_filter]
      apply List.filter_congr
      intro kv _
      simp only [List.contains_cons, Bool.not_or, Bool.and_comm]
      cases hkv : kv.1 == p <;> simp [hkv, bne]
  exact h proparray obj

/-- Python-style first character: `s[0]`, `none` when indexing would raise
`IndexError`. -/
def pyFirstChar (s : String) : Option Char := s.data.head?

/-- Python-style last character: `s[-1]`, `none` when indexing would raise
`IndexError`. -/
def pyLastChar (s : String) : Option Char := s.data.getLast?

/-- The external world of one request, as oracles.  Model responses to the
private chats of a round are indexed by the round number (the prompt each
one answers is determined by the round). -/
structure Oracle where
  /-- `json.loads` specialised to the places the code expects a JSON array
  of strings; `none` models `json.JSONDecodeError`. -/
  parse : String → Option (List String)
  /-- the model's reply to the `identify_searches` private chat of a round -/
  identResp : Nat → String
  /-- the model's reply to the `get_urls_to_browse` private chat of a round -/
  urlsResp : Nat → String
  /-- the model's reply to the `is_background_info_sufficient` private chat -/
  suffResp : Nat → String
  /-- `search_bing`: `none` models a caught provider exception -/
  bing : String → Option (List Obj)
  /-- `fetch_and_parse_url`: `some text` when the page fetch returns status
  200 (the extracted paragraph text), `none` otherwise -/
  fetchPage : String → Option String
  /-- the summarization private chat for one URL; `.error` models an
  exception raised by the chat transport -/
  summarize : String → Except String String

/-- The string-processing tail of `identify_searches` (everything after the
private chat returned the string `resp`):
sentinel check, defensive bracket wrapping (`searches[0]` raises
`IndexError` on an empty string), then `json.loads`.
`.ok none` is Python `None`; `.error` is a propagating exception.
The `Summaries` argument only selects the prompt sent to the model
(`identify_searches` vs `identify_additional_searches` preamble); it does
not otherwise affect this post-processing. -/
def identify_searches (ρ : Oracle) (rnd : Nat)
    (Summaries : Option (List Summary)) : Except String (Option (List String)) :=
  let _ := Summaries
  let resp := ρ.identResp rnd
  if resp = "No searches required." then .ok none
  else
    match pyFirstChar resp with
    | none => .error "IndexError"
    | some c0 =>
      let s1 := if c0 ≠ '[' then "[" ++ resp else resp
      match pyLastChar s1 with
      | none => .error "IndexError"
      | some c1 =>
        let s2 := if c1 ≠ ']' then s1 ++ "]" else s1
        match ρ.parse s2 with
        | none => .error "JSONDecodeError"
        | some l => .ok (some l)

/-- Return value of `get_urls_to_browse`: the forwarded `"Search error."`
sentinel, or the model's URL-selection reply (a string, later parsed by
`get_article_summaries`). -/
inductive UrlsRet where
  | sentinel
  | urls (s : String)
deriving DecidableEq, Repr

/-- `get_urls_to_browse(request_body, request_headers, searches)`:
runs `get_search_results`; if it produced the `"Search error."` sentinel
the sentinel is returned unchanged, otherwise the (dumped) results are put
in front of the model, whose reply is returned. -/
def get_urls_to_browse (ρ : Oracle) (rnd : Nat) (searches : List String) :
    UrlsRet × List Event :=
  match get_search_results ρ.bing searches with
  | (.sentinel, evs) => (.sentinel, evs)
  | (_, evs) => (.urls (ρ.urlsResp rnd), evs)

/-- `fetch_and_parse_url(url)`: returns the page's extracted paragraph text
on a 200 status, `None` otherwise. -/
def fetch_and_parse_url (ρ : Oracle) (url : String) : Option String :=
  ρ.fetchPage url

/-- The inner `process_url` coroutine of `get_article_summaries`: `None`
pages yield no Summary, fetched pages are summarized by one private chat
(whose exception, if any, propagates).  The source builds the
`{URL, summary}` object through a `json.loads` round-trip; it is modelled
as the record directly. -/
def process_url (ρ : Oracle) (url : String) :
    Except String (Option Summary) × List Event :=
  match fetch_and_parse_url ρ url with
  | none => (.ok none, [.fetchCall url])
  | some _content =>
    match ρ.summarize url with
    | .error e => (.error e, [.fetchCall url, .summarizeCall url])
    | .ok s => (.ok (some ⟨url, s⟩), [.fetchCall url, .summarizeCall url])

/-- The join of `asyncio.gather`: task results are collected in
task-submission order, and a raised exception propagates to the awaiter
(modelled as the first one in submission order). -/
def gatherJoin : List (Except String (Option Summary)) →
    Except String (List (Option Summary))
  | [] => .ok []
  | .error e :: _ => .error e
  | .ok r :: rest =>
    match gatherJoin rest with
    | .error e => .error e
    | .ok rs => .ok (r :: rs)

/-- The fan-out and join of `get_article_summaries` over an already-parsed
URL list.  One task per URL is submitted in list order; `asyncio.gather`
collects the task results in task-submission order (the order of
`URLsToBrowse`); `None` results are filtered out of the returned batch. -/
def get_article_summaries (ρ : Oracle) (URLsToBrowse : List String) :
    Except String (List Summary) × List Event :=
  let runs := URLsToBrowse.map (process_url ρ)
  let evs := (runs.map Prod.snd).flatten
  match gatherJoin (runs.map Prod.fst) with
  | .error e => (.error e, evs)
  | .ok results => (.ok (results.filterMap id), evs)

/-- `get_article_summaries` including its first statement
`URLsToBrowse = json.loads(URLsToBrowse)`: the model's URL reply is a
string that is parsed before the fan-out. -/
def get_article_summaries_str (ρ : Oracle) (URLsToBrowse : String) :
    Except String (List Summary) × List Event :=
  match ρ.parse URLsToBrowse with
  | none => (.error "JSONDecodeError", [])
  | some urls => get_article_summaries ρ urls

/-- `is_background_info_sufficient`: the sentinel reply
`"More information needed."` maps to `False`, anything else to `True`. -/
def is_background_info_sufficient (resp : String) : Bool :=
  if resp = "More information needed." then false else true

/-- Value returned by `search_and_add_background_references`: Python
`None` (no search needed), the `"Search error."` sentinel string, or the
background preamble built from the accumulated Summaries.  The preamble
string is `prompts["background_info_preamble"] + json.dumps(Summaries) +
...`, modelled by the `Summaries` value it serializes. -/
inductive Preamble where
  | noneVal
  | searchErrorStr
  | background (Summaries : Option (List Summary))
deriving DecidableEq, Repr

/-- Result of running the orchestrator: a returned value, a propagating
exception, or `outOfFuel` when the `while` loop is still running after the
given number of rounds (the source loop has no bound of its own). -/
inductive RunResult where
  | ret (p : Preamble)
  | raised (e : String)
  | outOfFuel
deriving DecidableEq, Repr

/-- The `while NeedsMoreSummaries` loop of
`search_and_add_background_references`.  One unit of fuel is one loop
iteration (one research round).  `set_status_message` sends are modelled
as succeeding and recorded as `status` events (their failure mode is
modelled separately by `set_status_message` below).
Note the source calls `identify_searches(request_body, request_headers)`
with no third argument in every round, so the `Summaries` argument of each
recorded `identifyCall` is `none`. -/
def search_loop (ρ : Oracle) :
    Nat → Nat → Option (List Summary) → List Event → RunResult × List Event
  | 0, _, _, evs => (.outOfFuel, evs)
  | fuel + 1, rnd, Summaries, evs =>
    let evs := evs ++ [.identifyCall none]
    match identify_searches ρ rnd none with
    | .error e => (.raised e, evs)
    | .ok none =>
      (.ret .noneVal, evs ++ [.status "Generating answer..."])
    | .ok (some searches) =>
      let evs := evs ++ [.status "Searching..."]
      match get_urls_to_browse ρ rnd searches with
      | (.sentinel, sevs) => (.ret .searchErrorStr, evs ++ sevs)
      | (.urls urlsStr, sevs) =>
        let evs := evs ++ sevs ++ [.status "Browsing and analyzing..."]
        match get_article_summaries_str ρ urlsStr with
        | (.error e, gevs) => (.raised e, evs ++ gevs)
        | (.ok newSummaries, gevs) =>
          let evs := evs ++ gevs
          let Summaries :=
            match Summaries with
            | none => some newSummaries
            | some acc => some (acc ++ newSummaries)
          let evs := evs ++ [.status "Double checking sources..."]
          if is_background_info_sufficient (ρ.suffResp rnd) then
            (.ret (.background Summaries), evs ++ [.status "Generating answer..."])
          else
            search_loop ρ fuel (rnd + 1) Summaries evs

/-- `search_and_add_background_references(request_body, request_headers)`:
the loop started with `Summaries = None` in round 0. -/
def search_and_add_background_references (ρ : Oracle) (fuel : Nat) :
    RunResult × List Event :=
  search_loop ρ fuel 0 none []

/-- The system preamble `conversation_internal` hands to
`stream_chat_request` for the user-visible answer. -/
inductive SysPreamble where
  /-- Python `None`: the real conversation proceeds with no injected preamble -/
  | noPreamble
  /-- the background-evidence preamble built from the Summaries -/
  | background (Summaries : Option (List Summary))
  /-- `prompts["search_error_preamble"]`: the fixed search-failure apology
  instruction -/
  | searchApology
deriving DecidableEq, Repr

/-- The observable behaviour of `conversation_internal`. -/
inductive Emission where
  /-- `stream_chat_request` invoked with the given system preamble -/
  | stream (sys : SysPreamble)
  /-- the `except` handler returned a generic JSON error response -/
  | errorResponse (e : String)
  | outOfFuel
deriving DecidableEq, Repr

/-- `conversation_internal(request_body, request_headers)`: runs the
research loop; a result different from the string `"Search error."` is
passed to `stream_chat_request` as the system preamble, the sentinel is
replaced by the fixed apology preamble, and an exception is caught and
returned as a generic error response. -/
def conversation_internal (ρ : Oracle) (fuel : Nat) : Emission :=
  match (search_and_add_background_references ρ fuel).1 with
  | .outOfFuel => .outOfFuel
  | .raised e => .errorResponse e
  | .ret .searchErrorStr => .stream .searchApology
  | .ret .noneVal => .stream .noPreamble
  | .ret (.background S) => .stream (.background S)

/-- A live websocket sink as seen by `set_status_message`; `send` may
raise (modelled by `.error`). -/
structure WsClient where
  send : String → Except String Unit

/-- The process-wide `clients` registry: page-instance id to live sink.
The `ws` handler deletes the entry in its `finally` block when the
connection closes. -/
abbrev Clients := List (String × WsClient)

/-- `set_status_message(message, page_instance_id)`:
`await clients[page_instance_id].send(message)` with no exception
handling — a missing key raises `KeyError`, and a failing `send` raises
whatever the transport raised. -/
def set_status_message (clients : Clients) (message : String)
    (page_instance_id : String) : Except String Unit :=
  match clients.lookup page_instance_id with
  | none => .error "KeyError"
  | some c => c.send message

/-! ## Concrete oracles used as witnesses and counterexamples -/

/-- A search provider that answers every query `q` with one result object
carrying a kept field (`name`) and a denylisted field (`id`), both tagged
with the query. -/
def bingC1 : String → Option (List Obj) :=
  fun q => some [[("name", q), ("id", q)]]

/-! ## Claims -/

/-- **C1** (code bug evidence).  On `searches = ["a", "b"]` with a provider
that succeeds on both queries, `get_search_results` issues only one
provider call (for `"a"`) and returns only the first query's stripped
results, although the provider would have answered the second query: the
field-stripping block and `return allresults` are indented inside the
`for` loop, so the function returns during the first iteration instead of
accumulating one result array per query. -/
theorem get_search_results_returns_after_first_query :
    get_search_results bingC1 ["a", "b"] =
      (.arr [[("name", "a")]], [.bingCall "a"]) ∧
    bingC1 "b" = some [[("name", "b"), ("id", "b")]] := by
  constructor <;> rfl

/-- **C3** (confirmed).  Every array of result objects returned by
`get_search_results` has all fourteen denylisted metadata fields absent
from every item, and each returned item is exactly the provider's item
with the denylisted fields filtered out — every non-denylisted field is
kept verbatim and in order. -/
theorem get_search_results_strips_denylist
    (bing : String → Option (List Obj)) (searches : List String)
    (rs : List Obj) (evs : List Event)
    (h : get_search_results bing searches = (.arr rs, evs)) :
    (∀ obj ∈ rs, ∀ kv ∈ obj, ¬ kv.1 ∈ proparray) ∧
    (∃ s rest os, searches = s :: rest ∧ bing s = some os ∧
      rs = os.map (fun o => o.filter (fun kv => !(proparray.contains kv.1)))) := by
  cases searches with
  | nil =>
    simp [get_search_results, get_search_results_go] at h
  | cons s rest =>
    simp only [get_search_results, get_search_results_go] at h
    cases hb : bing s with
    | none => rw [hb] at h; simp at h
    | some os =>
      rw [hb] at h
      simp only [Prod.mk.injEq, GetSearchRet.arr.injEq] at h
      obtain ⟨hrs, -⟩ := h
      have hrs' : rs = os.map
          (fun o => o.filter (fun kv => !(proparray.contains kv.1))) := by
        rw [← hrs]
        simp [stripFields_eq_filter]
      refine ⟨?_, s, rest, os, rfl, hb, hrs'⟩
      intro obj hobj kv hkv
      rw [hrs'] at hobj
      obtain ⟨o, -, rfl⟩ := List.mem_map.mp hobj
      have hpred := List.of_mem_filter hkv
      simpa using hpred

/-- Witness for C3: the concrete batch from `bingC1` on `["a"]`, where the
denylisted `id` field has been removed and `name` kept. -/
theorem get_search_results_strips_denylist_witness :
    (∀ obj ∈ ([[("name", "a")]] : List Obj), ∀ kv ∈ obj, ¬ kv.1 ∈ proparray) ∧
    (∃ s rest os, (["a"] : List String) = s :: rest ∧ bingC1 s = some os ∧
      ([[("name", "a")]] : List Obj) = os.map
        (fun o => o.filter (fun kv => !(proparray.contains kv.1)))) :=
  get_search_results_strips_denylist bingC1 ["a"] [[("name", "a")]]
    [Event.bingCall "a"] (by rfl)

/-- An external world whose model never proposes searches (used to witness
the no-search path). -/
def oracleC4 : Oracle where
  parse := fun _ => none
  identResp := fun _ => "No searches required."
  urlsResp := fun _ => ""
  suffResp := fun _ => ""
  bing := fun _ => none
  fetchPage := fun _ => none
  summarize := fun _ => .error "unused"

/-- **C4** (confirmed).  When the model's reply to `identify_searches` is
the literal sentinel `"No searches required."`, `identify_searches`
returns `None`, and the orchestrator notifies `"Generating answer..."`
and returns `None` (the `NoSearchNeeded` outcome): the run's whole trace
is that one planning call plus the notification, with no search, fetch,
or summarize call. -/
theorem no_searches_required_terminates (ρ : Oracle) (fuel : Nat)
    (h : ρ.identResp 0 = "No searches required.") :
    identify_searches ρ 0 none = .ok none ∧
    search_and_add_background_references ρ (fuel + 1) =
      (.ret .noneVal, [.identifyCall none, .status "Generating answer..."]) ∧
    (∀ q, Event.bingCall q ∉ (search_and_add_background_references ρ (fuel + 1)).2) ∧
    (∀ u, Event.fetchCall u ∉ (search_and_add_background_references ρ (fuel + 1)).2) ∧
    (∀ u, Event.summarizeCall u ∉ (search_and_add_background_references ρ (fuel + 1)).2) := by
  have hid : identify_searches ρ 0 none = .ok none := by
    simp [identify_searches, h]
  have hrun : search_and_add_background_references ρ (fuel + 1) =
      (.ret .noneVal, [.identifyCall none, .status "Generating answer..."]) := by
    simp [search_and_add_background_references, search_loop, hid]
  refine ⟨hid, hrun, ?_, ?_, ?_⟩ <;> intro x <;> rw [hrun] <;> simp

/-- Witness for C4 at the concrete world `oracleC4` with one unit of
fuel. -/
theorem no_searches_required_terminates_witness :
    identify_searches oracleC4 0 none = .ok none ∧
    search_and_add_background_references oracleC4 1 =
      (.ret .noneVal, [.identifyCall none, .status "Generating answer..."]) ∧
    (∀ q, Event.bingCall q ∉ (search_and_add_background_references oracleC4 1).2) ∧
    (∀ u, Event.fetchCall u ∉ (search_and_add_background_references oracleC4 1).2) ∧
    (∀ u, Event.summarizeCall u ∉ (search_and_add_background_references oracleC4 1).2) :=
  no_searches_required_terminates oracleC4 0 (by rfl)

/-- An external world in which the model proposes the single query `"q"`
every round, the provider always succeeds, the model selects no URLs, and
the sufficiency check always answers the `"More information needed."`
sentinel. -/
def oracleC9 : Oracle where
  parse := fun s =>
    if s = "[\"q\"]" then some ["q"] else if s = "[]" then some [] else none
  identResp := fun _ => "[\"q\"]"
  urlsResp := fun _ => "[]"
  suffResp := fun _ => "More information needed."
  bing := fun _ => some []
  fetchPage := fun _ => none
  summarize := fun u => .ok u

/-- **C9** (confirmed).  The research loop has no round cap: in the world
`oracleC9` — planning always proposes a search, the provider never
errors, and the sufficiency check always answers
`"More information needed."` — the `while` loop of
`search_and_add_background_references` is still running after any number
of rounds. -/
theorem research_loop_unbounded :
    ∀ fuel, (search_and_add_background_references oracleC9 fuel).1 = .outOfFuel := by
  have h1 : ∀ rnd, identify_searches oracleC9 rnd none = .ok (some ["q"]) :=
    fun _ => rfl
  have h2 : ∀ rnd, get_urls_to_browse oracleC9 rnd ["q"] =
      (.urls "[]", [.bingCall "q"]) := fun _ => rfl
  have h3 : get_article_summaries_str oracleC9 "[]" = (.ok [], []) := rfl
  have h4 : ∀ rnd, is_background_info_sufficient (oracleC9.suffResp rnd) = false :=
    fun _ => rfl
  have key : ∀ fuel rnd S evs, (search_loop oracleC9 fuel rnd S evs).1 = .outOfFuel := by
    intro fuel
    induction fuel with
    | zero => intro rnd S evs; rfl
    | succ n ih =>
      intro rnd S evs
      cases S with
      | none =>
        simp only [search_loop, h1 rnd, h2 rnd, h3, h4 rnd, Bool.false_eq_true,
          if_false]
        exact ih (rnd + 1) _ _
      | some acc =>
        simp only [search_loop, h1 rnd, h2 rnd, h3, h4 rnd, Bool.false_eq_true,
          if_false]
        exact ih (rnd + 1) _ _
  intro fuel
  exact key fuel 0 none []

/-! ## Characterization of the event traces of the sub-operations -/

/-- Every event recorded by the `get_search_results` loop beyond the ones
already accumulated is a provider call. -/
theorem get_search_results_go_events (bing : String → Option (List Obj))
    (acc : Option (List Obj)) (evs : List Event) (searches : List String) :
    ∀ e ∈ (get_search_results_go bing acc evs searches).2,
      e ∈ evs ∨ ∃ q, e = .bingCall q := by
  cases searches with
  | nil => intro e he; exact .inl he
  | cons s rest =>
    intro e he
    simp only [get_search_results_go] at he
    cases hb : bing s <;> rw [hb] at he <;> simp only [] at he <;>
      rcases List.mem_append.mp he with h | h
    · exact .inl h
    · exact .inr ⟨s, List.mem_singleton.mp h⟩
    · exact .inl h
    · exact .inr ⟨s, List.mem_singleton.mp h⟩

/-- Every event recorded by `get_search_results` is a provider call. -/
theorem get_search_results_events (bing : String → Option (List Obj))
    (searches : List String) :
    ∀ e ∈ (get_search_results bing searches).2, ∃ q, e = .bingCall q := by
  intro e he
  rcases get_search_results_go_events bing none [] searches e he with h | h
  · exact absurd h (List.not_mem_nil e)
  · exact h

/-- `get_urls_to_browse` records exactly the events of its
`get_search_results` call. -/
theorem get_urls_to_browse_events (ρ : Oracle) (rnd : Nat)
    (searches : List String) :
    (get_urls_to_browse ρ rnd searches).2 = (get_search_results ρ.bing searches).2 := by
  unfold get_urls_to_browse
  rcases get_search_results ρ.bing searches with ⟨r, evs⟩
  cases r <;> rfl

/-- Every event recorded by one `process_url` task concerns its URL's
fetch or summarization. -/
theorem process_url_events (ρ : Oracle) (url : String) :
    ∀ e ∈ (process_url ρ url).2,
      e = .fetchCall url ∨ e = .summarizeCall url := by
  intro e he
  unfold process_url at he
  cases hf : fetch_and_parse_url ρ url <;> rw [hf] at he
  · exact .inl (List.mem_singleton.mp he)
  · cases hs : ρ.summarize url <;> rw [hs] at he <;> simpa using he

/-- The trace of `get_article_summaries` is the concatenation of its
per-URL task traces (whatever the join's outcome). -/
theorem get_article_summaries_trace (ρ : Oracle) (urls : List String) :
    (get_article_summaries ρ urls).2 =
      ((urls.map (process_url ρ)).map Prod.snd).flatten := by
  simp only [get_article_summaries]
  split <;> rfl

/-- Every event recorded by `get_article_summaries` is a fetch or a
summarization. -/
theorem get_article_summaries_events (ρ : Oracle) (urls : List String) :
    ∀ e ∈ (get_article_summaries ρ urls).2,
      ∃ u, e = .fetchCall u ∨ e = .summarizeCall u := by
  intro e he
  rw [get_article_summaries_trace] at he
  rcases List.mem_flatten.mp he with ⟨l, hl, hel⟩
  rcases List.mem_map.mp hl with ⟨run, hrun, rfl⟩
  rcases List.mem_map.mp hrun with ⟨u, -, rfl⟩
  exact ⟨u, process_url_events ρ u e hel⟩

/-- Every event recorded by `get_article_summaries` (including the
initial `json.loads` of the URL string) is a fetch or a summarization. -/
theorem get_article_summaries_str_events (ρ : Oracle) (URLsToBrowse : String) :
    ∀ e ∈ (get_article_summaries_str ρ URLsToBrowse).2,
      ∃ u, e = .fetchCall u ∨ e = .summarizeCall u := by
  intro e he
  unfold get_article_summaries_str at he
  cases hp : ρ.parse URLsToBrowse <;> rw [hp] at he
  · exact absurd he (List.not_mem_nil e)
  · exact get_article_summaries_events ρ _ e he

/-- In any run of the orchestrator's `while` loop, every
`identify_searches` call is made with no `Summaries` argument (Python
default `None`): the source invokes
`identify_searches(request_body, request_headers)` in every round. -/
theorem search_loop_identify_args (ρ : Oracle) :
    ∀ fuel rnd S evs arg,
      Event.identifyCall arg ∈ (search_loop ρ fuel rnd S evs).2 →
      Event.identifyCall arg ∈ evs ∨ arg = none := by
  intro fuel
  induction fuel with
  | zero => intro rnd S evs arg h; exact .inl h
  | succ n ih =>
    intro rnd S evs arg h
    have hbase : Event.identifyCall arg ∈ evs ++ [Event.identifyCall none] →
        Event.identifyCall arg ∈ evs ∨ arg = none := by
      intro hm
      rcases List.mem_append.mp hm with hm | hm
      · exact .inl hm
      · right
        have := List.mem_singleton.mp hm
        injection this
    simp only [search_loop] at h
    cases hi : identify_searches ρ rnd none with
    | error e =>
      rw [hi] at h
      simp only [] at h
      exact hbase h
    | ok o =>
      cases o with
      | none =>
        rw [hi] at h
        simp only [] at h
        rcases List.mem_append.mp h with hm | hm
        · exact hbase hm
        · simp at hm
      | some searches =>
        rw [hi] at h
        simp only [] at h
        rcases hu : get_urls_to_browse ρ rnd searches with ⟨ur, sevs⟩
        rw [hu] at h
        have hsevs : Event.identifyCall arg ∉ sevs := by
          intro hm
          have h2 : Event.identifyCall arg ∈ (get_urls_to_browse ρ rnd searches).2 := by
            rw [hu]; exact hm
          rw [get_urls_to_browse_events] at h2
          rcases get_search_results_events ρ.bing searches _ h2 with ⟨q, hq⟩
          exact Event.noConfusion hq
        cases ur with
        | sentinel =>
          simp only [] at h
          rcases List.mem_append.mp h with hm | hm
          · rcases List.mem_append.mp hm with hm | hm
            · exact hbase hm
            · simp at hm
          · exact absurd hm hsevs
        | urls urlsStr =>
          simp only [] at h
          rcases hg : get_article_summaries_str ρ urlsStr with ⟨gr, gevs⟩
          rw [hg] at h
          have hgevs : Event.identifyCall arg ∉ gevs := by
            intro hm
            have h2 : Event.identifyCall arg ∈ (get_article_summaries_str ρ urlsStr).2 := by
              rw [hg]; exact hm
            rcases get_article_summaries_str_events ρ urlsStr _ h2 with ⟨u, hu2 | hu2⟩ <;>
              exact Event.noConfusion hu2
          have hprefix : Event.identifyCall arg ∈
              evs ++ [Event.identifyCall none] ++ [Event.status "Searching..."] ++
                sevs ++ [Event.status "Browsing and analyzing..."] ++ gevs →
              Event.identifyCall arg ∈ evs ∨ arg = none := by
            intro hm
            rcases List.mem_append.mp hm with hm | hm
            · rcases List.mem_append.mp hm with hm | hm
              · rcases List.mem_append.mp hm with hm | hm
                · rcases List.mem_append.mp hm with hm | hm
                  · exact hbase hm
                  · simp at hm
                · exact absurd hm hsevs
              · simp at hm
            · exact absurd hm hgevs
          cases gr with
          | error e =>
            simp only [] at h
            exact hprefix h
          | ok newSummaries =>
            simp only [] at h
            cases hs : is_background_info_sufficient (ρ.suffResp rnd) with
            | true =>
              rw [hs] at h
              simp only [if_true] at h
              rcases List.mem_append.mp h with hm | hm
              · rcases List.mem_append.mp hm with hm | hm
                · exact hprefix hm
                · simp at hm
              · simp at hm
            | false =>
              rw [hs] at h
              simp only [Bool.false_eq_true, if_false] at h
              rcases ih (rnd + 1) _ _ arg h with hm | hm
              · rcases List.mem_append.mp hm with hm | hm
                · exact hprefix hm
                · simp at hm
              · exact .inr hm

/-- A two-round external world: round 0 gathers the summary of `u0` and
the sufficiency check answers `"More information needed."`; round 1
gathers the summary of `u1` and the check passes. -/
def oracleC2 : Oracle where
  parse := fun s =>
    if s = "[\"q0\"]" then some ["q0"]
    else if s = "[\"q1\"]" then some ["q1"]
    else if s = "[\"u0\"]" then some ["u0"]
    else if s = "[\"u1\"]" then some ["u1"]
    else none
  identResp := fun r => if r = 0 then "[\"q0\"]" else "[\"q1\"]"
  urlsResp := fun r => if r = 0 then "[\"u0\"]" else "[\"u1\"]"
  suffResp := fun r => if r = 0 then "More information needed." else "Sufficient."
  bing := fun _ => some []
  fetchPage := fun u => some ("page " ++ u)
  summarize := fun u => .ok ("sum " ++ u)

/-- **C2** (code bug evidence).  When the sufficiency check answers the
`"More information needed."` sentinel the orchestrator does run another
round and does append the new round's Summaries after the existing ones
(final bundle `[u0-summary, u1-summary]` below) — but the accumulated
Summaries are *not* passed forward to `identify_searches`: every
`identifyCall` in every run carries the argument `none`, because the
source invokes `identify_searches(request_body, request_headers)` without
its `Summaries` parameter in every round, leaving the
`identify_additional_searches` branch of `identify_searches` dead. -/
theorem search_loop_repeats_first_round_plan :
    search_and_add_background_references oracleC2 2 =
      (.ret (.background (some [⟨"u0", "sum u0"⟩, ⟨"u1", "sum u1"⟩])),
       [.identifyCall none, .status "Searching...", .bingCall "q0",
        .status "Browsing and analyzing...", .fetchCall "u0", .summarizeCall "u0",
        .status "Double checking sources...",
        .identifyCall none, .status "Searching...", .bingCall "q1",
        .status "Browsing and analyzing...", .fetchCall "u1", .summarizeCall "u1",
        .status "Double checking sources...", .status "Generating answer..."]) ∧
    (∀ ρ fuel rnd S evs arg,
        Event.identifyCall arg ∈ (search_loop ρ fuel rnd S evs).2 →
        Event.identifyCall arg ∈ evs ∨ arg = none) :=
  ⟨by rfl, search_loop_identify_args⟩

/-- An external world whose provider fails on every query. -/
def oracleC7 : Oracle where
  parse := fun s => if s = "[\"q\"]" then some ["q"] else none
  identResp := fun _ => "[\"q\"]"
  urlsResp := fun _ => ""
  suffResp := fun _ => ""
  bing := fun _ => none
  fetchPage := fun _ => none
  summarize := fun _ => .error "unused"

/-- **C7** (confirmed).  `get_urls_to_browse` forwards the
`"Search error."` sentinel of `get_search_results` unchanged; when a
round's search pipeline yields the sentinel, the loop iteration returns
the `SearchError` outcome at once, having recorded only the planning
call, the `"Searching..."` notification and the provider calls (every
`get_search_results` event is a provider call — no fetch, no
summarization, no sufficiency check, no further round); and on the
`SearchError` outcome `conversation_internal` still streams an answer,
using the fixed search-failure apology instruction as the system
preamble. -/
theorem search_error_terminates_run :
    (∀ ρ rnd searches, (get_search_results ρ.bing searches).1 = .sentinel →
      (get_urls_to_browse ρ rnd searches).1 = .sentinel) ∧
    (∀ bing searches, ∀ e ∈ (get_search_results bing searches).2,
      ∃ q, e = Event.bingCall q) ∧
    (∀ ρ fuel rnd S evs searches,
      identify_searches ρ rnd none = .ok (some searches) →
      (get_search_results ρ.bing searches).1 = .sentinel →
      search_loop ρ (fuel + 1) rnd S evs =
        (.ret .searchErrorStr,
         evs ++ [Event.identifyCall none] ++ [Event.status "Searching..."] ++
           (get_search_results ρ.bing searches).2)) ∧
    (∀ ρ fuel, (search_and_add_background_references ρ fuel).1 = .ret .searchErrorStr →
      conversation_internal ρ fuel = .stream .searchApology) := by
  refine ⟨?_, ?_, ?_, ?_⟩
  · intro ρ rnd searches hsent
    unfold get_urls_to_browse
    rcases hg : get_search_results ρ.bing searches with ⟨r, evs2⟩
    rw [hg] at hsent
    cases r <;> simp_all
  · exact get_search_results_events
  · intro ρ fuel rnd S evs searches hi hsent
    have hu : get_urls_to_browse ρ rnd searches =
        (.sentinel, (get_search_results ρ.bing searches).2) := by
      unfold get_urls_to_browse
      rcases hg : get_search_results ρ.bing searches with ⟨r, evs2⟩
      rw [hg] at hsent
      cases r <;> simp_all
    simp only [search_loop]
    rw [hi]
    simp only []
    rw [hu]
  · intro ρ fuel h
    unfold conversation_internal
    rw [h]

/-- Witness for C7 at the concrete world `oracleC7`, whose provider fails
on the single proposed query `"q"`. -/
theorem search_error_terminates_run_witness :
    (get_urls_to_browse oracleC7 0 ["q"]).1 = .sentinel ∧
    (∃ q, Event.bingCall "q" = Event.bingCall q) ∧
    search_loop oracleC7 1 0 none [] =
      (.ret .searchErrorStr,
       [] ++ [Event.identifyCall none] ++ [Event.status "Searching..."] ++
         (get_search_results oracleC7.bing ["q"]).2) ∧
    conversation_internal oracleC7 1 = .stream .searchApology :=
  ⟨search_error_terminates_run.1 oracleC7 0 ["q"] (by rfl),
   search_error_terminates_run.2.1 oracleC7.bing ["q"] (Event.bingCall "q")
     (List.mem_singleton.mpr rfl),
   search_error_terminates_run.2.2.1 oracleC7 0 0 none [] ["q"] (by rfl) (by rfl),
   search_error_terminates_run.2.2.2 oracleC7 1 (by rfl)⟩

/-- A non-empty string has a non-empty character list. -/
theorem data_ne_nil_of_ne_empty (s : String) (h : s ≠ "") : s.data ≠ [] := by
  intro hd
  apply h
  cases s
  simp_all

/-- Prepending the opening bracket does not change the last character of a
non-empty string. -/
theorem pyLastChar_bracket_append (s : String) (h : s.data ≠ []) :
    pyLastChar ("[" ++ s) = pyLastChar s := by
  unfold pyLastChar
  have heq : ("[" ++ s).data = ['['] ++ s.data := rfl
  rw [heq, List.getLast?_append_of_ne_nil _ h]

/-- The defensive coercion as the spec words it: the response is wrapped
into a JSON array by prepending `[` when its first character is not `[`
and appending `]` when its last character is not `]`. -/
def coerce_spec (resp : String) : String :=
  let s1 := if pyFirstChar resp ≠ some '[' then "[" ++ resp else resp
  if pyLastChar resp ≠ some ']' then s1 ++ "]" else s1

/-- **C5** (corrected).  For every *non-empty* model response other than
the `"No searches required."` sentinel, `identify_searches` parses exactly
the bracket-coerced response: it succeeds with the parsed query list when
`json.loads` succeeds and raises the parse error otherwise — and any
exception raised by `identify_searches` in the first round propagates to
the request boundary, where it surfaces as a generic error response.
(An empty response is excluded: there `searches[0]` raises `IndexError`
before any coercion, see the counterexample.) -/
theorem identify_searches_coerce_parse (ρ : Oracle) (rnd : Nat)
    (S : Option (List Summary))
    (hne : ρ.identResp rnd ≠ "No searches required.")
    (hnempty : ρ.identResp rnd ≠ "") :
    (identify_searches ρ rnd S =
      match ρ.parse (coerce_spec (ρ.identResp rnd)) with
      | some l => Except.ok (some l)
      | none => Except.error "JSONDecodeError") ∧
    (∀ ρ2 fuel e, identify_searches ρ2 0 none = .error e →
      conversation_internal ρ2 (fuel + 1) = .errorResponse e) := by
  constructor
  · have hdata : (ρ.identResp rnd).data ≠ [] :=
      data_ne_nil_of_ne_empty _ hnempty
    unfold identify_searches coerce_spec
    rw [if_neg hne]
    cases hfirst : pyFirstChar (ρ.identResp rnd) with
    | none =>
      exact absurd (by simpa [pyFirstChar] using hfirst) hdata
    | some c =>
      simp only []
      by_cases hc : c = '['
      · subst hc
        rw [if_neg (show ¬('[' ≠ '[') by simp),
          if_neg (show ¬((some '[' : Option Char) ≠ some '[') by simp)]
        cases hlast : pyLastChar (ρ.identResp rnd) with
        | none =>
          exact absurd (by simpa [pyLastChar] using hlast) hdata
        | some d =>
          simp only []
          by_cases hd : d = ']'
          · subst hd
            rw [if_neg (show ¬(']' ≠ ']') by simp),
              if_neg (show ¬((some ']' : Option Char) ≠ some ']') by simp)]
            cases ρ.parse (ρ.identResp rnd) <;> rfl
          · rw [if_pos (show d ≠ ']' from hd),
              if_pos (show (some d : Option Char) ≠ some ']' by simpa using hd)]
            cases ρ.parse (ρ.identResp rnd ++ "]") <;> rfl
      · rw [if_pos (show c ≠ '[' from hc),
          if_pos (show (some c : Option Char) ≠ some '[' by simpa using hc)]
        rw [pyLastChar_bracket_append _ hdata]
        cases hlast : pyLastChar (ρ.identResp rnd) with
        | none =>
          exact absurd (by simpa [pyLastChar] using hlast) hdata
        | some d =>
          simp only []
          by_cases hd : d = ']'
          · subst hd
            rw [if_neg (show ¬(']' ≠ ']') by simp),
              if_neg (show ¬((some ']' : Option Char) ≠ some ']') by simp)]
            cases ρ.parse ("[" ++ ρ.identResp rnd) <;> rfl
          · rw [if_pos (show d ≠ ']' from hd),
              if_pos (show (some d : Option Char) ≠ some ']' by simpa using hd)]
            cases ρ.parse ("[" ++ ρ.identResp rnd ++ "]") <;> rfl
  · intro ρ2 fuel e hid
    unfold conversation_internal search_and_add_background_references
    simp only [search_loop]
    rw [hid]

/-- A world whose model answers the empty string to the first planning
question and whose `json.loads` parses `"[]"` to the empty list. -/
def oracleC5 : Oracle where
  parse := fun s => if s = "[]" then some [] else none
  identResp := fun _ => ""
  urlsResp := fun _ => ""
  suffResp := fun _ => ""
  bing := fun _ => none
  fetchPage := fun _ => none
  summarize := fun _ => .error "unused"

/-- Counterexample to C5 as stated: on the empty (non-sentinel) response
the claim's coerce-then-parse pipeline would succeed — the coerced string
is `"[]"` and parses to the empty query list — but `identify_searches`
instead raises `IndexError` at the `searches[0]` check, before any
coercion or parsing, and the request boundary reports that error. -/
theorem identify_searches_empty_response_raises :
    identify_searches oracleC5 0 none = .error "IndexError" ∧
    oracleC5.parse (coerce_spec (oracleC5.identResp 0)) = some [] ∧
    conversation_internal oracleC5 1 = .errorResponse "IndexError" :=
  ⟨rfl, rfl, rfl⟩

/-- A world whose model answers an unparsable non-empty string. -/
def oracleC5b : Oracle where
  parse := fun _ => none
  identResp := fun _ => "not json"
  urlsResp := fun _ => ""
  suffResp := fun _ => ""
  bing := fun _ => none
  fetchPage := fun _ => none
  summarize := fun _ => .error "unused"

/-- Witness for C5 at the concrete world `oracleC5b`: the unparsable
response propagates `JSONDecodeError` out of `identify_searches` and
surfaces as a generic error response. -/
theorem identify_searches_coerce_parse_witness :
    (identify_searches oracleC5b 0 none =
      match oracleC5b.parse (coerce_spec (oracleC5b.identResp 0)) with
      | some l => Except.ok (some l)
      | none => Except.error "JSONDecodeError") ∧
    conversation_internal oracleC5b 1 = .errorResponse "JSONDecodeError" := by
  have h := identify_searches_coerce_parse oracleC5b 0 none (by decide) (by decide)
  exact ⟨h.1, h.2 oracleC5b 0 "JSONDecodeError" (by rfl)⟩

/-- Unfolding of `get_article_summaries` on one more URL: the head task's
exception aborts the join, a head `None` contributes nothing, and a head
Summary is placed before the tail's batch. -/
theorem get_article_summaries_cons (ρ : Oracle) (u : String) (us : List String) :
    (get_article_summaries ρ (u :: us)).1 =
      match (process_url ρ u).1 with
      | .error e => .error e
      | .ok r =>
        match (get_article_summaries ρ us).1 with
        | .error e => .error e
        | .ok rest => .ok (r.toList ++ rest) := by
  simp only [get_article_summaries, List.map_cons]
  cases hp : (process_url ρ u).1 with
  | error e => rfl
  | ok r =>
    simp only [gatherJoin]
    cases hj : gatherJoin ((us.map (process_url ρ)).map Prod.fst) with
    | error e => cases r <;> rfl
    | ok rs => cases r <;> rfl

/-- On a URL with a non-success fetch, `process_url` yields no Summary. -/
theorem process_url_fetch_failure (ρ : Oracle) (u : String)
    (h : ρ.fetchPage u = none) : (process_url ρ u).1 = .ok none := by
  unfold process_url fetch_and_parse_url
  rw [h]

/-- On a fetched URL whose summarization chat succeeds, `process_url`
yields exactly one `{URL, summary}` entry. -/
theorem process_url_fetch_success (ρ : Oracle) (u : String) (c s : String)
    (hf : ρ.fetchPage u = some c) (hs : ρ.summarize u = .ok s) :
    (process_url ρ u).1 = .ok (some ⟨u, s⟩) := by
  unfold process_url fetch_and_parse_url
  rw [hf]
  simp only []
  rw [hs]

/-- The per-URL Summary produced by the batch, `none` for dropped URLs. -/
def summaryOf (ρ : Oracle) (u : String) : Option Summary :=
  match ρ.fetchPage u, ρ.summarize u with
  | some _, .ok s => some ⟨u, s⟩
  | _, _ => none

/-- **C6** (corrected, under the no-summarization-exception hypothesis).
When every fetched URL's summarization chat succeeds, the batch returns
exactly one `{URL, summary}` entry per URL with a successful fetch and no
entry for a URL whose fetch does not return a success status: the batch
is the input list filtered down to the successful fetches, and its size
is exactly the number of successful fetches — no fetch failure aborts the
batch.  (The claim's further assertion that a summarization failure also
never aborts the batch is refuted by the counterexample: a summarization
exception propagates through `asyncio.gather` and aborts the whole
batch.) -/
theorem get_article_summaries_drops_failed_fetches (ρ : Oracle)
    (urls : List String)
    (h : ∀ u ∈ urls, (ρ.fetchPage u).isSome → ∃ s, ρ.summarize u = .ok s) :
    (get_article_summaries ρ urls).1 = .ok (urls.filterMap (summaryOf ρ)) ∧
    (urls.filterMap (summaryOf ρ)).length =
      (urls.filter (fun u => (ρ.fetchPage u).isSome)).length := by
  induction urls with
  | nil => exact ⟨rfl, rfl⟩
  | cons u us ih =>
    have hu := h u (List.mem_cons_self u us)
    have htail := ih (fun v hv => h v (List.mem_cons_of_mem u hv))
    rw [get_article_summaries_cons, htail.1]
    cases hf : ρ.fetchPage u with
    | none =>
      rw [process_url_fetch_failure ρ u hf]
      have hso : summaryOf ρ u = none := by
        unfold summaryOf
        rw [hf]
      constructor
      · simp [List.filterMap_cons, hso]
      · simp only [List.filterMap_cons, hso, List.filter_cons, hf,
          Option.isSome_none, Bool.false_eq_true, if_false]
        exact htail.2
    | some c =>
      obtain ⟨s, hs⟩ := hu (by rw [hf]; rfl)
      rw [process_url_fetch_success ρ u c s hf hs]
      have hso : summaryOf ρ u = some ⟨u, s⟩ := by
        unfold summaryOf
        rw [hf, hs]
      constructor
      · simp [List.filterMap_cons, hso]
      · simp only [List.filterMap_cons, hso, List.filter_cons, hf,
          Option.isSome_some, if_true, List.length_cons]
        exact congrArg Nat.succ htail.2

/-- A world where the fetch of `u2` returns a non-success status and all
other pages fetch and summarize fine. -/
def oracleC6 : Oracle where
  parse := fun _ => none
  identResp := fun _ => ""
  urlsResp := fun _ => ""
  suffResp := fun _ => ""
  bing := fun _ => none
  fetchPage := fun u => if u = "u2" then none else some "text"
  summarize := fun u => .ok ("sum " ++ u)

/-- Witness for C6: of the three URLs `u1, u2, u3` exactly `u2` fails to
fetch, and the batch has exactly the two entries for `u1` and `u3`. -/
theorem get_article_summaries_drops_failed_fetches_witness :
    ((get_article_summaries oracleC6 ["u1", "u2", "u3"]).1 =
      .ok ((["u1", "u2", "u3"] : List String).filterMap (summaryOf oracleC6)) ∧
     ((["u1", "u2", "u3"] : List String).filterMap (summaryOf oracleC6)).length =
      ((["u1", "u2", "u3"] : List String).filter
        (fun u => (oracleC6.fetchPage u).isSome)).length) ∧
    (["u1", "u2", "u3"] : List String).filterMap (summaryOf oracleC6) =
      [⟨"u1", "sum u1"⟩, ⟨"u3", "sum u3"⟩] :=
  ⟨get_article_summaries_drops_failed_fetches oracleC6 ["u1", "u2", "u3"]
    (fun u _ _ => ⟨"sum " ++ u, rfl⟩), by rfl⟩

/-- A world where every page fetches but the summarization chat of `u2`
raises. -/
def oracleC6bad : Oracle where
  parse := fun _ => none
  identResp := fun _ => ""
  urlsResp := fun _ => ""
  suffResp := fun _ => ""
  bing := fun _ => none
  fetchPage := fun _ => some "text"
  summarize := fun u => if u = "u2" then .error "ChatError" else .ok ("sum " ++ u)

/-- Counterexample to C6 as stated: all three fetches succeed, yet the
single summarization exception for `u2` propagates out of
`asyncio.gather` and aborts the whole batch — `get_article_summaries`
raises instead of returning the other URLs' Summary entries, so an
individual summarization failure does abort the batch. -/
theorem get_article_summaries_summarize_error_aborts :
    (get_article_summaries oracleC6bad ["u1", "u2", "u3"]).1 = .error "ChatError" ∧
    ∀ u ∈ (["u1", "u2", "u3"] : List String), (oracleC6bad.fetchPage u).isSome :=
  ⟨by rfl, fun u _ => rfl⟩

/-- **C10** (confirmed).  Whatever batch `get_article_summaries` returns
lists its Summaries in the same relative order as the input URLs with
exactly the failed fetches removed: the URLs of the returned entries are
the input list filtered to the successful fetches — `asyncio.gather`
collects results in task-submission order, not completion order. -/
theorem get_article_summaries_preserves_order (ρ : Oracle)
    (urls : List String) (l : List Summary)
    (h : (get_article_summaries ρ urls).1 = .ok l) :
    l.map Summary.url = urls.filter (fun u => (ρ.fetchPage u).isSome) := by
  induction urls generalizing l with
  | nil =>
    have : l = [] := by
      have h' : Except.ok ([] : List Summary) = Except.ok l := h
      cases h'
      rfl
    subst this
    rfl
  | cons u us ih =>
    rw [get_article_summaries_cons] at h
    cases hp : (process_url ρ u).1 with
    | error e => rw [hp] at h; cases h
    | ok r =>
      rw [hp] at h
      simp only [] at h
      cases hg : (get_article_summaries ρ us).1 with
      | error e => rw [hg] at h; cases h
      | ok rest =>
        rw [hg] at h
        simp only [] at h
        have hl : l = r.toList ++ rest := by
          cases h
          rfl
        subst hl
        have hrest := ih rest hg
        cases hf : ρ.fetchPage u with
        | none =>
          have : (process_url ρ u).1 = .ok none := process_url_fetch_failure ρ u hf
          rw [hp] at this
          cases this
          simp only [Option.toList_none, List.nil_append, List.filter_cons, hf,
            Option.isSome_none, Bool.false_eq_true, if_false]
          exact hrest
        | some c =>
          unfold process_url fetch_and_parse_url at hp
          rw [hf] at hp
          simp only [] at hp
          cases hs : ρ.summarize u with
          | error e => rw [hs] at hp; cases hp
          | ok s =>
            rw [hs] at hp
            simp only [] at hp
            have hr : r = some ⟨u, s⟩ := by
              cases hp
              rfl
            subst hr
            simp only [Option.toList_some, List.cons_append, List.map_cons,
              List.filter_cons, hf, Option.isSome_some, if_true]
            exact congrArg (List.cons u) hrest

/-- A world for the C10 witness: the fetch of `u2` fails, the others
succeed. -/
def oracleC10 : Oracle where
  parse := fun _ => none
  identResp := fun _ => ""
  urlsResp := fun _ => ""
  suffResp := fun _ => ""
  bing := fun _ => none
  fetchPage := fun u => if u = "u2" then none else some "text"
  summarize := fun u => .ok ("sum " ++ u)

/-- Witness for C10: on input `[u1, u2, u3]` with `u2` failing to fetch,
the batch's URLs are `[u1, u3]` — input order with the failure removed. -/
theorem get_article_summaries_preserves_order_witness :
    ([⟨"u1", "sum u1"⟩, ⟨"u3", "sum u3"⟩] : List Summary).map Summary.url =
      (["u1", "u2", "u3"] : List String).filter
        (fun u => (oracleC10.fetchPage u).isSome) :=
  get_article_summaries_preserves_order oracleC10 ["u1", "u2", "u3"]
    [⟨"u1", "sum u1"⟩, ⟨"u3", "sum u3"⟩] (by rfl)

/-- A sink whose transport raises on send. -/
def failingClient : WsClient :=
  ⟨fun _ => .error "ConnectionClosedError"⟩

/-- Counterexample to C8 as stated: after the observer's disconnect the
`ws` listener's `finally` block has removed the entry from `clients`, and
`set_status_message` then raises `KeyError` to its caller instead of
swallowing the failure — an exception does escape to the orchestrator. -/
theorem set_status_message_raises_after_disconnect :
    set_status_message [] "Generating answer..." "session-1" = .error "KeyError" :=
  rfl

/-- **C8** (corrected).  `set_status_message` is not best-effort: with no
exception handling of its own, a lookup of an unregistered
page-instance id raises `KeyError` to the caller, and a registered sink
whose send fails propagates that send failure to the caller. -/
theorem set_status_message_propagates (clients : Clients) (msg pid : String) :
    (clients.lookup pid = none →
      set_status_message clients msg pid = .error "KeyError") ∧
    (∀ c e, clients.lookup pid = some c → c.send msg = .error e →
      set_status_message clients msg pid = .error e) := by
  constructor
  · intro h
    unfold set_status_message
    rw [h]
  · intro c e hc he
    unfold set_status_message
    rw [hc]
    exact he

/-- Witness for C8: the empty registry raises `KeyError`; a registered
failing sink's error propagates. -/
theorem set_status_message_propagates_witness :
    set_status_message [] "m" "gone" = .error "KeyError" ∧
    set_status_message [("id1", failingClient)] "m" "id1" =
      .error "ConnectionClosedError" :=
  ⟨(set_status_message_propagates [] "m" "gone").1 (by rfl),
   (set_status_message_propagates [("id1", failingClient)] "m" "id1").2
     failingClient "ConnectionClosedError" (by rfl) (by rfl)⟩

end DeepSearchAI
